import Mathlib

/-!
Shallow embedding of the tikatape crate (src/lib.rs, src/local.rs,
src/remote.rs): a dual-backend client for a document-parsing engine.
Pure data is translated directly; effects (filesystem, subprocess,
HTTP) are threaded through explicit state and environment records, and
the behaviour of external crates (serde_json, mime, url, reqwest,
tokio) is abstracted behind function-valued parameters or small
records, with the interface each call site actually relies on spelled
out in doc comments.
-/

namespace Tikatape

/-- Model of `serde_json::Value`: a dynamically-typed JSON value.
Numbers are modelled as integers; no claim computes with numbers. -/
inductive Json where
  | null
  | bool (b : Bool)
  | num (n : Int)
  | str (s : String)
  | arr (elems : List Json)
  | obj (fields : List (String × Json))

/-- `serde_json::Value::as_str`: `Some` exactly on JSON strings. -/
def Json.asStr : Json → Option String
  | .str s => some s
  | _ => none

/-- Model of `HashMap<String, serde_json::Value>`, the ResultMap carried
between raw backend output and typed accessors. A `HashMap` is modelled
as an association list; parsed maps carry a no-duplicate-keys invariant
(see `Ext.parse_nodup`). -/
abbrev ResultMap := List (String × Json)

/-- `HashMap::get`: the value stored under key `k`, if any. -/
def mget (m : ResultMap) (k : String) : Option Json :=
  (m.find? (fun p => p.1 == k)).map Prod.snd

/-- The error values the crate produces (`color_eyre` reports and the
library errors converted by `?`), one constructor per distinct source
of failure:
* `missingContent` — `eyre!("Missing or empty content")` (the spec's
  `MissingContentError`);
* `inputNotSet` — `eyre!("Input not set")` (`InputNotSetError`);
* `invalidFilePath` — `eyre!("Invalid file path")` in
  `Client::data_source` when a path is not valid UTF-8;
* `missingTmpFolder` — `eyre!("Missing tmp folder")`;
* `noConfigPath` — `eyre!("No config for Tika available")`;
* `jsonParse` — a `serde_json` parse failure converted by `?`
  (part of the spec's `ParseError`);
* `urlParse` — a `url::ParseError` from `Url::join` converted by `?`
  (part of the spec's `ParseError`);
* `mimeParse` — the spec's `ParseError` for a malformed MIME type; the
  code under src/ never constructs it (`.parse().ok()` discards the
  mime error), it exists to state the spec's prediction;
* `ioErr` — a `std::io`/`tokio::fs` error converted by `?`;
* `netErr` — a `reqwest` transport error converted by `?`;
* `utf8Err` — `std::str::from_utf8` failure converted by `?`
  (the spec's `TransportError` on non-UTF8 subprocess output). -/
inductive Err where
  | missingContent
  | inputNotSet
  | invalidFilePath
  | missingTmpFolder
  | noConfigPath
  | jsonParse (msg : String)
  | urlParse
  | mimeParse (s : String)
  | ioErr (msg : String)
  | netErr (msg : String)
  | utf8Err
deriving Repr, DecidableEq

/-- The spec's `ParseError` family (§7: malformed URL, MIME type, or
JSON), as a predicate on `Err`. -/
def Err.isParseErr : Err → Bool
  | .jsonParse _ => true
  | .urlParse => true
  | .mimeParse _ => true
  | _ => false

/-- Model of `reqwest::Url` (the `url` crate's `Url`): an already
validated absolute URL. `canBeABase` records whether the URL can be a
base for relative resolution (`mailto:`/`data:` style URLs cannot);
`repr` is its textual form. -/
structure Url where
  canBeABase : Bool
  repr : String
deriving Repr, DecidableEq

/-- Modelled from the `url` crate: `Url::join` with a plain relative
path such as `"tika/html"` or `"meta"` succeeds exactly when the base
can be a base, and fails with `ParseError` otherwise; the textual form
of the resolved URL is abstracted as concatenation. -/
def joinUrl (base : Url) (path : String) : Except Err Url :=
  if base.canBeABase then Except.ok ⟨true, base.repr ++ path⟩
  else Except.error Err.urlParse

/-- Model of `std::path::PathBuf`: `s` is the path's textual content
and `isUtf8` records whether `as_os_str().to_str()` succeeds (an
`OsStr` need not be valid UTF-8). -/
structure PathBuf where
  s : String
  isUtf8 : Bool
deriving Repr, DecidableEq

/-- `Input` from src/lib.rs: a local file path or a remote URL. -/
inductive Input where
  | filePath (p : PathBuf)
  | url (u : Url)
deriving Repr, DecidableEq

/-- `Format` from src/lib.rs: the internal dispatch enumeration. -/
inductive Format where
  | Html
  | Text
  | Mime
  | Metadata
deriving Repr, DecidableEq

/-- Model of `mime::Mime`: a parsed MIME type, kept as its
type/subtype pair (parameters and suffixes are not distinguished by
any claim). -/
structure Mime where
  ty : String
  sub : String
deriving Repr, DecidableEq

/-- Split a character list at its first `/`, if any. -/
def splitOnSlash : List Char → Option (List Char × List Char)
  | [] => none
  | c :: rest =>
    if c = '/' then some ([], rest)
    else
      match splitOnSlash rest with
      | some (t, u) => some (c :: t, u)
      | none => none

/-- Modelled from the `mime` crate: `str::parse::<mime::Mime>` requires
the shape `type/subtype`; a string without a slash separating two
nonempty parts is rejected (e.g. `"plain"` fails to parse, while
`"text/plain"` parses). Used only to instantiate the abstract parser
at concrete inputs. -/
def parseMimeModel (s : String) : Option Mime :=
  match splitOnSlash s.toList with
  | some (t, u) =>
    if t ≠ [] ∧ u ≠ [] then some ⟨String.mk t, String.mk u⟩ else none
  | none => none

/-- The external parsers the crate calls, abstracted:
`parseJsonObj` is `serde_json::from_str::<HashMap<String, Value>>`
(errors carry serde's message), `parseMime` is
`str::parse::<mime::Mime>`. `parse_nodup` records the `HashMap`
invariant that parsed maps have no duplicate keys. -/
structure Ext where
  parseJsonObj : String → Except String ResultMap
  parseMime : String → Option Mime
  parse_nodup : ∀ s m, parseJsonObj s = Except.ok m → (m.map Prod.fst).Nodup

/-- `process_output` from src/local.rs: normalize raw subprocess output
per `Format`. Html/Text wrap the raw string under `"result"`; Mime
parses JSON and `retain`s only the `"Content-Type"` entry
(`HashMap::retain` is modelled by `List.filter`); Metadata parses JSON
and returns the map unchanged. -/
def process_output (ext : Ext) (output : String) (format : Format) :
    Except Err ResultMap :=
  match format with
  | .Html => Except.ok [("result", Json.str output)]
  | .Text => Except.ok [("result", Json.str output)]
  | .Mime =>
    match ext.parseJsonObj output with
    | .error e => Except.error (Err.jsonParse e)
    | .ok s => Except.ok (s.filter (fun p => p.1 == "Content-Type"))
  | .Metadata =>
    match ext.parseJsonObj output with
    | .error e => Except.error (Err.jsonParse e)
    | .ok res => Except.ok res

/-- `text_result` from src/local.rs: extract the `"result"` field as a
string, failing with `eyre!("Missing or empty content")` otherwise. -/
def text_result (res : ResultMap) : Except Err String :=
  match (mget res "result").bind Json.asStr with
  | some s => Except.ok s
  | none => Except.error Err.missingContent

/-- `format_arg` from src/local.rs. -/
def format_arg : Format → String
  | .Html => "-h"
  | .Text => "-t"
  | .Mime => "-j"
  | .Metadata => "-j"

/-! ## Local backend (src/local.rs) -/

/-- `TIKA_NAME` from src/local.rs. -/
def TIKA_NAME : String := "tika-app-2.4.0.jar"

/-- The three byte blobs embedded at build time with `include_bytes!`
(`TIKA_JAR`, `TIKA_OCR_CONFIG`, `TIKA_NO_OCR_CONFIG`). Their files are
not under src/, so their contents stay abstract: every statement is
quantified over this record. -/
structure Blobs where
  tikaJar : List Nat
  ocrConfig : List Nat
  noOcrConfig : List Nat

/-- Model of `tempdir::TempDir`: the scratch directory, identified by
its path (assumed valid UTF-8; `to_str` failure on the scratch path is
not modelled). -/
structure TempDir where
  path : String
deriving Repr, DecidableEq

/-- The scratch filesystem: path to file contents. Writes are modelled
as total (an `std::io` failure of `File::create` would propagate as
`IoError`, and a `write_all` failure panics via `.unwrap()`; neither is
exercised by any claim). -/
abbrev FS := String → Option (List Nat)

/-- `Client` from src/local.rs: the local (bundled-engine) backend. -/
structure Client where
  input : Input
  ocr : Bool
  jar_path : Option TempDir

/-- `jar_path()` from src/local.rs: allocate the scratch directory and
write the bundled engine artifact into it under `TIKA_NAME`. The fresh
directory is supplied by the caller (`TempDir::new` randomness); the
write is the returned filesystem update. -/
def jar_path (bl : Blobs) (d : TempDir) (fs : FS) : TempDir × FS :=
  (d, fun q => if q = d.path ++ "/" ++ TIKA_NAME then some bl.tikaJar else fs q)

/-- `Client::try_new` from src/local.rs. -/
def Client.try_new (bl : Blobs) (input : Input) (ocr : Bool) (d : TempDir)
    (fs : FS) : Client × FS :=
  let p := Tikatape.jar_path bl d fs
  (⟨input, ocr, some p.1⟩, p.2)

/-- `Client::data_source` from src/local.rs: resolve the `Input` to a
single string — the file path's UTF-8 text (else
`eyre!("Invalid file path")`), or the URL's text. -/
def Client.data_source (c : Client) : Except Err String :=
  match c.input with
  | .filePath p => if p.isUtf8 then Except.ok p.s else Except.error Err.invalidFilePath
  | .url u => Except.ok u.repr

/-- `Client::tmp_jar_cmd` from src/local.rs: the engine artifact's path
inside the scratch directory (`None` when `jar_path` is `None`; the
`to_str` failure case is subsumed by the UTF-8 assumption on
`TempDir.path`). -/
def Client.tmp_jar_cmd (c : Client) : Option String :=
  c.jar_path.map (fun d => d.path ++ "/" ++ TIKA_NAME)

/-- `Client::config` from src/local.rs: choose the OCR or no-OCR
configuration blob by `c.ocr`, write it to the fixed scratch path
`tika-config.xml` (overwriting), and return that path. -/
def Client.config (bl : Blobs) (c : Client) (fs : FS) :
    Except Err (String × FS) :=
  let cfg := if c.ocr then bl.ocrConfig else bl.noOcrConfig
  match c.jar_path with
  | none => Except.error Err.missingTmpFolder
  | some d =>
    let file_path := d.path ++ "/" ++ "tika-config.xml"
    Except.ok (file_path, fun q => if q = file_path then some cfg else fs q)

/-- The environment of one `process` call: `javaHome` is the
`JAVA_HOME` lookup in `java_bin()`; `spawnOk` is whether
`Command::spawn` succeeds; `waitOk` is whether `wait_with_output`
succeeds; `exitCode` is the child's exit status; `stdoutUtf8` is the
result of `std::str::from_utf8` on the captured standard output
(`none` for non-UTF8 bytes). -/
structure ProcEnv where
  javaHome : Option String
  spawnOk : Bool
  waitOk : Bool
  exitCode : Int
  stdoutUtf8 : Option String
deriving Repr, DecidableEq

/-- `java_bin()` from src/local.rs. -/
def java_bin (env : ProcEnv) : String :=
  match env.javaHome with
  | some h => h ++ "/bin/java"
  | none => "java"

/-- One attempted subprocess spawn: program, argument list in order,
and which standard streams are piped (captured). -/
structure SpawnEvent where
  prog : String
  args : List String
  stdoutPiped : Bool
  stderrPiped : Bool
deriving Repr, DecidableEq

/-- The result of a call that may also panic (`expect`/`unwrap` in the
source abort instead of returning `Err`). -/
inductive Outcome (α : Type) where
  | ok (a : α)
  | err (e : Err)
  | panicked (msg : String)
deriving Repr, DecidableEq

/-- Apply an `Except`-valued continuation under an `Outcome`. -/
def Outcome.bindE {α β : Type} : Outcome α → (α → Except Err β) → Outcome β
  | .ok a, f =>
    match f a with
    | .ok b => .ok b
    | .error e => .err e
  | .err e, _ => .err e
  | .panicked m, _ => .panicked m

/-- `Client::process` from src/local.rs, with the argument-builder
evaluation order of the source: `tmp_jar_cmd` (`?` on `None`), then
`config` (written before the spawn), then `format_arg`, then
`data_source` (`?`), then `spawn` with only stdout piped —
`.expect("Error spawning Tika server process")` PANICS when spawning
fails — then `wait_with_output()?`, then UTF-8 decoding of stdout
(`?`), then `process_output`. Returns the outcome, the filesystem
after the call, and the spawn attempts made. The exit status carried
by `wait_with_output` is never inspected. -/
def process (ext : Ext) (bl : Blobs) (env : ProcEnv) (c : Client)
    (format : Format) (fs : FS) : Outcome ResultMap × FS × List SpawnEvent :=
  match c.tmp_jar_cmd with
  | none => (.err Err.missingTmpFolder, fs, [])
  | some jarArg =>
    match c.config bl fs with
    | .error e => (.err e, fs, [])
    | .ok (cfgPath, fs1) =>
      match c.data_source with
      | .error e => (.err e, fs1, [])
      | .ok src =>
        let ev : SpawnEvent :=
          ⟨java_bin env,
           ["-Djava.awt.headless=true", "-jar", jarArg,
            "--config=" ++ cfgPath, format_arg format, src],
           true, false⟩
        if env.spawnOk = false then
          (.panicked "Error spawning Tika server process", fs1, [ev])
        else if env.waitOk = false then
          (.err (Err.ioErr "wait_with_output"), fs1, [ev])
        else
          match env.stdoutUtf8 with
          | none => (.err Err.utf8Err, fs1, [ev])
          | some out =>
            match process_output ext out format with
            | .error e => (.err e, fs1, [ev])
            | .ok m => (.ok m, fs1, [ev])

/-- `Client::text` from src/local.rs. -/
def Client.text (ext : Ext) (bl : Blobs) (env : ProcEnv) (c : Client)
    (fs : FS) : Outcome String × FS × List SpawnEvent :=
  let r := process ext bl env c Format.Text fs
  (r.1.bindE text_result, r.2.1, r.2.2)

/-- `Client::html` from src/local.rs. -/
def Client.html (ext : Ext) (bl : Blobs) (env : ProcEnv) (c : Client)
    (fs : FS) : Outcome String × FS × List SpawnEvent :=
  let r := process ext bl env c Format.Html fs
  (r.1.bindE text_result, r.2.1, r.2.2)

/-- The field extraction inside `Client::mimetype` from src/local.rs:
`res.get("Content-Type").and_then(as_str).and_then(parse().ok())
.ok_or(eyre!("Missing or empty content"))`. Note the mime parse error
is swallowed by `.ok()` before `ok_or`, so every failure mode yields
the same `missingContent` error. -/
def mime_extract (ext : Ext) (res : ResultMap) : Except Err Mime :=
  match ((mget res "Content-Type").bind Json.asStr).bind ext.parseMime with
  | some m => Except.ok m
  | none => Except.error Err.missingContent

/-- `Client::mimetype` from src/local.rs. -/
def Client.mimetype (ext : Ext) (bl : Blobs) (env : ProcEnv) (c : Client)
    (fs : FS) : Outcome Mime × FS × List SpawnEvent :=
  let r := process ext bl env c Format.Mime fs
  (r.1.bindE (mime_extract ext), r.2.1, r.2.2)

/-- `Client::metadata` from src/local.rs. -/
def Client.metadata (ext : Ext) (bl : Blobs) (env : ProcEnv) (c : Client)
    (fs : FS) : Outcome ResultMap × FS × List SpawnEvent :=
  process ext bl env c Format.Metadata fs

/-! ## Remote backend (src/remote.rs) -/

/-- Model of `reqwest::Client`: an opaque handle (its connection pool
and defaults are external); `id` only serves to state that the field
is left unchanged by operations. -/
structure ReqwestClient where
  id : Nat
deriving Repr, DecidableEq

/-- `RemoteClient` from src/remote.rs. -/
structure RemoteClient where
  url : Url
  input : Option Input
  last_output : Option ResultMap
  client : ReqwestClient

/-- `RemoteClient::new` from src/remote.rs: `last_output` starts as
`None`, and a fresh `reqwest::Client` is created. -/
def RemoteClient.new (url : Url) (input : Option Input) : RemoteClient :=
  ⟨url, input, none, ⟨0⟩⟩

/-- `RemoteClient::input` from src/remote.rs (named `set_input` here
because the Lean field projection already takes the name `input`):
store the new `Input` and clear `last_output`. -/
def RemoteClient.set_input (c : RemoteClient) (i : Input) : RemoteClient :=
  { c with input := some i, last_output := none }

/-- The network world one remote call runs against: `readFile` is
`tokio::fs::read`, `httpGet` is `client.get(url).send().bytes()`
(the response body bytes), `httpPut` is
`client.put(url).header(...).body(...).send().text()` (the response
body text). -/
structure Net where
  readFile : PathBuf → Except Err (List Nat)
  httpGet : Url → Except Err (List Nat)
  httpPut : Url → List (String × String) → List Nat → Except Err String

/-- An HTTP exchange performed by the remote backend, in order. -/
inductive HttpEvent where
  | get (u : Url)
  | put (u : Url) (headers : List (String × String)) (body : List Nat)
deriving Repr, DecidableEq

/-- `RemoteClient::input_data` from src/remote.rs: resolve the current
`Input` to raw bytes — read the file, or GET the URL — failing with
`eyre!("Input not set")` when no input is set. The second component
lists the HTTP exchanges attempted. -/
def RemoteClient.input_data (net : Net) (c : RemoteClient) :
    Except Err (List Nat) × List HttpEvent :=
  match c.input with
  | none => (Except.error Err.inputNotSet, [])
  | some (.filePath p) => (net.readFile p, [])
  | some (.url u) => (net.httpGet u, [HttpEvent.get u])

/-- `RemoteClient::request` from src/remote.rs, in the source's
evaluation order: `self.url.join(path)?` first, then
`self.input_data().await?`, and only then the PUT (with header
`Accept: application/json` and the resolved bytes as body) and the
JSON parse of the response text (`?` on a serde error). -/
def RemoteClient.request (ext : Ext) (net : Net) (c : RemoteClient)
    (path : String) : Except Err ResultMap × List HttpEvent :=
  match joinUrl c.url path with
  | .error e => (Except.error e, [])
  | .ok u =>
    match c.input_data net with
    | (.error e, evs) => (Except.error e, evs)
    | (.ok body, evs) =>
      let hdrs := [("Accept", "application/json")]
      match net.httpPut u hdrs body with
      | .error e => (Except.error e, evs ++ [HttpEvent.put u hdrs body])
      | .ok text =>
        match ext.parseJsonObj text with
        | .error e => (Except.error (Err.jsonParse e), evs ++ [HttpEvent.put u hdrs body])
        | .ok m => (Except.ok m, evs ++ [HttpEvent.put u hdrs body])

/-- The scalar field extraction shared by `html`/`text`/`mimetype` in
src/remote.rs: `.get(key).and_then(as_str).map(to_owned)
.ok_or(eyre!("Missing or empty content"))`. -/
def contentField (m : ResultMap) (key : String) : Except Err String :=
  match (mget m key).bind Json.asStr with
  | some s => Except.ok s
  | none => Except.error Err.missingContent

/-- `RemoteClient::html` from src/remote.rs. -/
def RemoteClient.html (ext : Ext) (net : Net) (c : RemoteClient) :
    Except Err String × List HttpEvent :=
  let r := c.request ext net "tika/html"
  (r.1.bind (fun m => contentField m "X-TIKA:content"), r.2)

/-- `RemoteClient::text` from src/remote.rs. -/
def RemoteClient.text (ext : Ext) (net : Net) (c : RemoteClient) :
    Except Err String × List HttpEvent :=
  let r := c.request ext net "tika/text"
  (r.1.bind (fun m => contentField m "X-TIKA:content"), r.2)

/-- `RemoteClient::mimetype` from src/remote.rs (it returns the
`Content-Type` string, not a parsed `mime::Mime`). -/
def RemoteClient.mimetype (ext : Ext) (net : Net) (c : RemoteClient) :
    Except Err String × List HttpEvent :=
  let r := c.request ext net "meta"
  (r.1.bind (fun m => contentField m "Content-Type"), r.2)

/-- `RemoteClient::metadata` from src/remote.rs. -/
def RemoteClient.metadata (ext : Ext) (net : Net) (c : RemoteClient) :
    Except Err ResultMap × List HttpEvent :=
  c.request ext net "meta"

/-- One public operation on a `RemoteClient`. The four accessors take
`&self` in the source and therefore cannot modify any field; only the
setter rebuilds the state. -/
inductive ROp where
  | opSetInput (i : Input)
  | opHtml
  | opText
  | opMimetype
  | opMetadata

/-- The state transition of one public operation (accessors leave the
state unchanged, matching their `&self` receivers). -/
def applyROp (c : RemoteClient) : ROp → RemoteClient
  | .opSetInput i => c.set_input i
  | .opHtml => c
  | .opText => c
  | .opMimetype => c
  | .opMetadata => c

/-! ## Concrete instances (used to instantiate quantified statements) -/

/-- A concrete external-parser instance: the JSON parser recognises the
single document `"mimeDoc"` as an object with a `Content-Type` and one
engine metadata key, and rejects everything else; the MIME parser is
`parseMimeModel`. -/
def extJ : Ext where
  parseJsonObj := fun s =>
    if s = "mimeDoc" then
      Except.ok [("Content-Type", Json.str "text/plain"),
                 ("X-TIKA:content", Json.str "hello")]
    else Except.error "invalid JSON"
  parseMime := parseMimeModel
  parse_nodup := by
    intro s m h
    dsimp only at h
    by_cases hs : s = "mimeDoc"
    · rw [if_pos hs] at h
      injection h with h2
      subst h2
      decide
    · rw [if_neg hs] at h
      exact absurd h (by simp)

/-- A concrete network: file reads and GETs return fixed bytes, every
PUT answers with the body `"mimeDoc"`. -/
def netJ : Net where
  readFile := fun _ => Except.ok [104, 105]
  httpGet := fun _ => Except.ok [104]
  httpPut := fun _ _ _ => Except.ok "mimeDoc"

/-- A base URL that can serve as a join base. -/
def goodUrl : Url := ⟨true, "http://tika.example/"⟩

/-- A validated absolute URL that cannot be a base (`mailto:`-style). -/
def badUrl : Url := ⟨false, "mailto:user@example.com"⟩

/-- A concrete UTF-8 file path. -/
def docPath : PathBuf := ⟨"/tmp/doc.txt", true⟩

/-- A remote client with an input set. -/
def rcOk : RemoteClient := RemoteClient.new goodUrl (some (Input.filePath docPath))

/-- A remote client with no input set. -/
def rcUnset : RemoteClient := RemoteClient.new goodUrl none

/-- A remote client with no input set whose base URL cannot be a base. -/
def rcBad : RemoteClient := RemoteClient.new badUrl none

/-- A concrete scratch directory. -/
def scratch : TempDir := ⟨"/tmp/tika_jar.abc123"⟩

/-- Concrete stand-ins for the three bundled blobs. -/
def blob0 : Blobs := ⟨[80, 75], [60, 111], [60, 110]⟩

/-- A local client (OCR enabled) with its scratch directory allocated. -/
def cLoc : Client := ⟨Input.filePath docPath, true, some scratch⟩

/-- The empty scratch filesystem. -/
def fs0 : FS := fun _ => none

/-- An environment where the spawn succeeds and stdout decodes to
`"mimeDoc"`. -/
def envOk : ProcEnv := ⟨none, true, true, 0, some "mimeDoc"⟩

/-- An environment where spawning the subprocess fails. -/
def envNoSpawn : ProcEnv := ⟨none, false, true, 0, none⟩

/-- An environment where the subprocess exits (with status 1) but its
standard output is not valid UTF-8. -/
def envBadUtf8 : ProcEnv := ⟨none, true, true, 1, none⟩

/-! ## Theorems -/

/-- C6: setting a new `Input` on a `RemoteClient` stores it, clears
`last_output` whatever its prior value, and leaves the base url and the
HTTP client field unchanged. -/
theorem set_input_resets (c : RemoteClient) (i : Input) :
    (c.set_input i).input = some i ∧
    (c.set_input i).last_output = none ∧
    (c.set_input i).url = c.url ∧
    (c.set_input i).client = c.client :=
  ⟨rfl, rfl, rfl, rfl⟩

/-- Folding any operation sequence preserves an empty `last_output`. -/
theorem last_output_foldl (ops : List ROp) (c : RemoteClient)
    (h : c.last_output = none) :
    (ops.foldl applyROp c).last_output = none := by
  induction ops generalizing c with
  | nil => exact h
  | cons o t ih =>
    cases o with
    | opSetInput i => exact ih _ rfl
    | opHtml => exact ih _ h
    | opText => exact ih _ h
    | opMimetype => exact ih _ h
    | opMetadata => exact ih _ h

/-- C9: along every sequence of public operations from construction,
`last_output` stays `None`: `new` initialises it to `None`, `set_input`
resets it to `None`, and no accessor writes to it. -/
theorem last_output_always_none (ops : List ROp) (url : Url)
    (inp : Option Input) :
    (ops.foldl applyROp (RemoteClient.new url inp)).last_output = none :=
  last_output_foldl ops _ rfl

/-- C4 (code bug): when spawning the subprocess fails, `process` does
not return a `ProcessError` to the caller — it panics with
`expect("Error spawning Tika server process")`; non-UTF8 captured
stdout, by contrast, is returned as an error value (`TransportError`). -/
theorem spawn_failure_panics :
    (process extJ blob0 envNoSpawn cLoc Format.Html fs0).1
      = Outcome.panicked "Error spawning Tika server process" ∧
    (process extJ blob0 envBadUtf8 cLoc Format.Html fs0).1
      = Outcome.err Err.utf8Err := by
  exact ⟨rfl, rfl⟩

/-- With no input set, `request` fails before any HTTP exchange: with
the URL-join error when the base cannot be a base (the join runs
first), and with `inputNotSet` otherwise. -/
theorem request_unset (ext : Ext) (net : Net) (c : RemoteClient)
    (path : String) (h : c.input = none) :
    c.request ext net path =
      ((if c.url.canBeABase then Except.error Err.inputNotSet
        else Except.error Err.urlParse), []) := by
  unfold RemoteClient.request RemoteClient.input_data joinUrl
  rw [h]
  by_cases hcb : c.url.canBeABase
  · simp [hcb]
  · simp [hcb]

/-- C3 (amended): with no input set, every accessor fails without any
HTTP request being performed; the failure is `inputNotSet` whenever the
base URL can be joined with the request path, and the join's URL
`ParseError` otherwise. -/
theorem unset_input_no_request (ext : Ext) (net : Net) (c : RemoteClient)
    (h : c.input = none) :
    (RemoteClient.html ext net c).2 = [] ∧
    (RemoteClient.text ext net c).2 = [] ∧
    (RemoteClient.mimetype ext net c).2 = [] ∧
    (RemoteClient.metadata ext net c).2 = [] ∧
    (RemoteClient.html ext net c).1 =
      (if c.url.canBeABase then Except.error Err.inputNotSet
       else Except.error Err.urlParse) ∧
    (RemoteClient.text ext net c).1 =
      (if c.url.canBeABase then Except.error Err.inputNotSet
       else Except.error Err.urlParse) ∧
    (RemoteClient.mimetype ext net c).1 =
      (if c.url.canBeABase then Except.error Err.inputNotSet
       else Except.error Err.urlParse) ∧
    (RemoteClient.metadata ext net c).1 =
      (if c.url.canBeABase then Except.error Err.inputNotSet
       else Except.error Err.urlParse) := by
  unfold RemoteClient.html RemoteClient.text RemoteClient.mimetype
    RemoteClient.metadata
  rw [request_unset ext net c "tika/html" h, request_unset ext net c "tika/text" h,
    request_unset ext net c "meta" h]
  by_cases hcb : c.url.canBeABase <;>
    simp [hcb, Except.bind]

/-- C3 witness: the amended statement at a concrete unset client. -/
theorem unset_input_no_request_witness :
    (RemoteClient.html extJ netJ rcUnset).2 = [] ∧
    (RemoteClient.text extJ netJ rcUnset).2 = [] ∧
    (RemoteClient.mimetype extJ netJ rcUnset).2 = [] ∧
    (RemoteClient.metadata extJ netJ rcUnset).2 = [] ∧
    (RemoteClient.html extJ netJ rcUnset).1 =
      (if rcUnset.url.canBeABase then Except.error Err.inputNotSet
       else Except.error Err.urlParse) ∧
    (RemoteClient.text extJ netJ rcUnset).1 =
      (if rcUnset.url.canBeABase then Except.error Err.inputNotSet
       else Except.error Err.urlParse) ∧
    (RemoteClient.mimetype extJ netJ rcUnset).1 =
      (if rcUnset.url.canBeABase then Except.error Err.inputNotSet
       else Except.error Err.urlParse) ∧
    (RemoteClient.metadata extJ netJ rcUnset).1 =
      (if rcUnset.url.canBeABase then Except.error Err.inputNotSet
       else Except.error Err.urlParse) :=
  unset_input_no_request extJ netJ rcUnset rfl

/-- C3 counterexample: a `RemoteClient` with no input whose base URL
cannot be a base fails with the URL `ParseError` — not with
`inputNotSet`, as the claim states for every unset client. -/
theorem unset_input_cex :
    (RemoteClient.html extJ netJ rcBad).1 = Except.error Err.urlParse ∧
    Err.urlParse ≠ Err.inputNotSet := by
  exact ⟨rfl, by decide⟩

/-- Characterization of one `process` call whose scratch directory is
allocated and whose input resolves: the config file is written before
the spawn, exactly one spawn is attempted with the full argument list,
and the outcome depends only on the spawn/wait/stdout environment. -/
theorem process_eq (ext : Ext) (bl : Blobs) (env : ProcEnv) (c : Client)
    (format : Format) (fs : FS) (d : TempDir) (src : String)
    (h : c.jar_path = some d) (hs : c.data_source = Except.ok src) :
    process ext bl env c format fs =
      ((if env.spawnOk = false then
          Outcome.panicked "Error spawning Tika server process"
        else if env.waitOk = false then Outcome.err (Err.ioErr "wait_with_output")
        else
          match env.stdoutUtf8 with
          | none => Outcome.err Err.utf8Err
          | some out =>
            match process_output ext out format with
            | .error e => Outcome.err e
            | .ok m => Outcome.ok m),
       (fun q => if q = d.path ++ "/" ++ "tika-config.xml"
          then some (if c.ocr then bl.ocrConfig else bl.noOcrConfig)
          else fs q),
       [⟨java_bin env,
         ["-Djava.awt.headless=true", "-jar", d.path ++ "/" ++ TIKA_NAME,
          "--config=" ++ (d.path ++ "/" ++ "tika-config.xml"),
          format_arg format, src],
         true, false⟩]) := by
  have ht : c.tmp_jar_cmd = some (d.path ++ "/" ++ TIKA_NAME) := by
    unfold Client.tmp_jar_cmd
    rw [h]
    rfl
  have hc : c.config bl fs =
      Except.ok (d.path ++ "/" ++ "tika-config.xml",
        fun q => if q = d.path ++ "/" ++ "tika-config.xml"
          then some (if c.ocr then bl.ocrConfig else bl.noOcrConfig)
          else fs q) := by
    unfold Client.config
    rw [h]
  unfold process
  rw [ht, hc, hs]
  dsimp only
  by_cases hsp : env.spawnOk = false
  · simp [hsp]
  · by_cases hw : env.waitOk = false
    · simp [hsp, hw]
    · cases hso : env.stdoutUtf8 with
      | none => simp [hsp, hw, hso]
      | some out =>
        cases hpo : process_output ext out format with
        | error e => simp [hsp, hw, hso, hpo]
        | ok m => simp [hsp, hw, hso, hpo]

/-- The scratch filesystem after any `process` call (whatever the
input, environment, or outcome): the config file holds the blob chosen
by `ocr`, and no other path changes. -/
theorem process_fs (ext : Ext) (bl : Blobs) (env : ProcEnv) (c : Client)
    (format : Format) (fs : FS) (d : TempDir) (h : c.jar_path = some d) :
    (process ext bl env c format fs).2.1 =
      fun q => if q = d.path ++ "/" ++ "tika-config.xml"
        then some (if c.ocr then bl.ocrConfig else bl.noOcrConfig)
        else fs q := by
  cases hds : c.data_source with
  | error e =>
    have ht : c.tmp_jar_cmd = some (d.path ++ "/" ++ TIKA_NAME) := by
      unfold Client.tmp_jar_cmd
      rw [h]
      rfl
    have hc : c.config bl fs =
        Except.ok (d.path ++ "/" ++ "tika-config.xml",
          fun q => if q = d.path ++ "/" ++ "tika-config.xml"
            then some (if c.ocr then bl.ocrConfig else bl.noOcrConfig)
            else fs q) := by
      unfold Client.config
      rw [h]
    unfold process
    rw [ht, hc, hds]
  | ok src =>
    rw [process_eq ext bl env c format fs d src h hds]

/-- C5: after every extraction call, the file at the fixed scratch path
`tika-config.xml` contains exactly the OCR-enabled blob when `ocr` is
true and exactly the OCR-disabled blob when it is false — the write
overwrites whatever `fs` held there before — and no other path of the
scratch filesystem is touched. -/
theorem config_reflects_ocr (ext : Ext) (bl : Blobs) (env : ProcEnv)
    (c : Client) (format : Format) (fs : FS) (d : TempDir)
    (h : c.jar_path = some d) :
    (process ext bl env c format fs).2.1 (d.path ++ "/" ++ "tika-config.xml")
      = some (if c.ocr then bl.ocrConfig else bl.noOcrConfig) ∧
    ∀ p, p ≠ d.path ++ "/" ++ "tika-config.xml" →
      (process ext bl env c format fs).2.1 p = fs p := by
  rw [process_fs ext bl env c format fs d h]
  exact ⟨if_pos rfl, fun p hp => if_neg hp⟩

/-- C5 witness: a concrete OCR-enabled call writes the OCR blob. -/
theorem config_reflects_ocr_witness :
    (process extJ blob0 envOk cLoc Format.Text fs0).2.1
        (scratch.path ++ "/" ++ "tika-config.xml")
      = some blob0.ocrConfig :=
  (config_reflects_ocr extJ blob0 envOk cLoc Format.Text fs0 scratch rfl).1

/-- C7: every local extraction call attempts exactly one spawn, whose
argument list is, in order: the headless-mode flag, `-jar` and the
scratch engine-artifact path, `--config=` and the scratch config path,
the format flag, and the resolved input string; only standard output is
piped. The format flag is `-h` for Html, `-t` for Text and `-j` for
both Mime and Metadata, and the input resolves to the file path string
or the URL string. -/
theorem local_argv (ext : Ext) (bl : Blobs) (env : ProcEnv) (c : Client)
    (format : Format) (fs : FS) (d : TempDir) (src : String)
    (h : c.jar_path = some d) (hs : c.data_source = Except.ok src) :
    (process ext bl env c format fs).2.2 =
      [⟨java_bin env,
        ["-Djava.awt.headless=true", "-jar", d.path ++ "/" ++ TIKA_NAME,
         "--config=" ++ (d.path ++ "/" ++ "tika-config.xml"),
         format_arg format, src],
        true, false⟩] ∧
    format_arg Format.Html = "-h" ∧
    format_arg Format.Text = "-t" ∧
    format_arg Format.Mime = "-j" ∧
    format_arg Format.Metadata = "-j" ∧
    (∀ p : PathBuf, p.isUtf8 = true →
      Client.data_source ⟨Input.filePath p, c.ocr, c.jar_path⟩ = Except.ok p.s) ∧
    (∀ u : Url,
      Client.data_source ⟨Input.url u, c.ocr, c.jar_path⟩ = Except.ok u.repr) := by
  refine ⟨?_, rfl, rfl, rfl, rfl, ?_, fun u => rfl⟩
  · rw [process_eq ext bl env c format fs d src h hs]
  · intro p hp
    unfold Client.data_source
    dsimp only
    rw [hp]
    rfl

/-- C7 witness: the concrete argument list of one call. -/
theorem local_argv_witness :
    (process extJ blob0 envOk cLoc Format.Mime fs0).2.2 =
      [⟨java_bin envOk,
        ["-Djava.awt.headless=true", "-jar", scratch.path ++ "/" ++ TIKA_NAME,
         "--config=" ++ (scratch.path ++ "/" ++ "tika-config.xml"),
         format_arg Format.Mime, docPath.s],
        true, false⟩] :=
  (local_argv extJ blob0 envOk cLoc Format.Mime fs0 scratch docPath.s rfl rfl).1

/-- C10: the subprocess's exit status is never inspected — the result
of `process` depends on the environment only through the runtime
lookup, spawn/wait success and the captured stdout, not through
`exitCode` — and any UTF-8 stdout at all makes `text()`/`html()`
succeed, returning that output. -/
theorem exit_status_ignored (ext : Ext) (bl : Blobs) (env : ProcEnv)
    (c : Client) (fs : FS) (d : TempDir) (src out : String)
    (hj : c.jar_path = some d) (hs : c.data_source = Except.ok src)
    (hsp : env.spawnOk = true) (hw : env.waitOk = true)
    (hout : env.stdoutUtf8 = some out) :
    (∀ (e1 e2 : ProcEnv) (format : Format), e1.javaHome = e2.javaHome →
      e1.spawnOk = e2.spawnOk → e1.waitOk = e2.waitOk →
      e1.stdoutUtf8 = e2.stdoutUtf8 →
      process ext bl e1 c format fs = process ext bl e2 c format fs) ∧
    (Client.text ext bl env c fs).1 = Outcome.ok out ∧
    (Client.html ext bl env c fs).1 = Outcome.ok out := by
  refine ⟨?_, ?_, ?_⟩
  · intro e1 e2 format h1 h2 h3 h4
    have hjb : java_bin e1 = java_bin e2 := by
      unfold java_bin
      rw [h1]
    rw [process_eq ext bl e1 c format fs d src hj hs,
      process_eq ext bl e2 c format fs d src hj hs, hjb, h2, h3, h4]
  · unfold Client.text
    rw [process_eq ext bl env c Format.Text fs d src hj hs, hsp, hw, hout]
    rfl
  · unfold Client.html
    rw [process_eq ext bl env c Format.Html fs d src hj hs, hsp, hw, hout]
    rfl

/-- C10 witness: a concrete call (exit status 0 here, unread) whose
stdout is the string `"mimeDoc"` makes `text()` return it. -/
theorem exit_status_ignored_witness :
    (Client.text extJ blob0 envOk cLoc fs0).1 = Outcome.ok "mimeDoc" :=
  (exit_status_ignored extJ blob0 envOk cLoc fs0 scratch docPath.s "mimeDoc"
    rfl rfl rfl rfl rfl).2.1

/-- One `request` whose base joins and whose input resolves: a single
PUT to the joined URL, with the `Accept: application/json` header and
the resolved bytes as body, whose response text is parsed as JSON. -/
theorem request_run (ext : Ext) (net : Net) (c : RemoteClient)
    (path : String) (b : List Nat) (evs : List HttpEvent)
    (hc : c.url.canBeABase = true)
    (hin : c.input_data net = (Except.ok b, evs)) :
    c.request ext net path =
      ((net.httpPut ⟨true, c.url.repr ++ path⟩ [("Accept", "application/json")] b).bind
          (fun t => (ext.parseJsonObj t).mapError Err.jsonParse),
       evs ++ [HttpEvent.put ⟨true, c.url.repr ++ path⟩
         [("Accept", "application/json")] b]) := by
  have hj : joinUrl c.url path = Except.ok ⟨true, c.url.repr ++ path⟩ := by
    unfold joinUrl
    rw [hc]
    rfl
  unfold RemoteClient.request
  rw [hj, hin]
  dsimp only
  cases hput : net.httpPut ⟨true, c.url.repr ++ path⟩
      [("Accept", "application/json")] b with
  | error e => simp [hput, Except.bind]
  | ok t =>
    cases hparse : ext.parseJsonObj t with
    | error e => simp [hput, hparse, Except.bind, Except.mapError]
    | ok m => simp [hput, hparse, Except.bind, Except.mapError]

/-- C2: with an input set (resolving to bytes `b`) and a joinable base,
`html()` PUTs to the base joined with `tika/html` and extracts
`X-TIKA:content`, `text()` PUTs to `tika/text` and extracts
`X-TIKA:content`, `mimetype()` PUTs to `meta` and extracts
`Content-Type`, `metadata()` PUTs to `meta` and returns the whole
parsed map; every request carries `Accept: application/json` and body
`b`, and the scalar extraction fails with `missingContent` exactly when
the field is absent or not a JSON string. -/
theorem remote_protocol (ext : Ext) (net : Net) (c : RemoteClient)
    (b : List Nat) (evs : List HttpEvent)
    (hc : c.url.canBeABase = true)
    (hin : c.input_data net = (Except.ok b, evs)) :
    (joinUrl c.url "tika/html" = Except.ok ⟨true, c.url.repr ++ "tika/html"⟩ ∧
      RemoteClient.html ext net c =
        (((net.httpPut ⟨true, c.url.repr ++ "tika/html"⟩
              [("Accept", "application/json")] b).bind
            (fun t => (ext.parseJsonObj t).mapError Err.jsonParse)).bind
          (fun m => contentField m "X-TIKA:content"),
         evs ++ [HttpEvent.put ⟨true, c.url.repr ++ "tika/html"⟩
           [("Accept", "application/json")] b])) ∧
    (joinUrl c.url "tika/text" = Except.ok ⟨true, c.url.repr ++ "tika/text"⟩ ∧
      RemoteClient.text ext net c =
        (((net.httpPut ⟨true, c.url.repr ++ "tika/text"⟩
              [("Accept", "application/json")] b).bind
            (fun t => (ext.parseJsonObj t).mapError Err.jsonParse)).bind
          (fun m => contentField m "X-TIKA:content"),
         evs ++ [HttpEvent.put ⟨true, c.url.repr ++ "tika/text"⟩
           [("Accept", "application/json")] b])) ∧
    (joinUrl c.url "meta" = Except.ok ⟨true, c.url.repr ++ "meta"⟩ ∧
      RemoteClient.mimetype ext net c =
        (((net.httpPut ⟨true, c.url.repr ++ "meta"⟩
              [("Accept", "application/json")] b).bind
            (fun t => (ext.parseJsonObj t).mapError Err.jsonParse)).bind
          (fun m => contentField m "Content-Type"),
         evs ++ [HttpEvent.put ⟨true, c.url.repr ++ "meta"⟩
           [("Accept", "application/json")] b])) ∧
    (RemoteClient.metadata ext net c =
        ((net.httpPut ⟨true, c.url.repr ++ "meta"⟩
              [("Accept", "application/json")] b).bind
            (fun t => (ext.parseJsonObj t).mapError Err.jsonParse),
         evs ++ [HttpEvent.put ⟨true, c.url.repr ++ "meta"⟩
           [("Accept", "application/json")] b])) ∧
    (∀ m : ResultMap, (mget m "X-TIKA:content").bind Json.asStr = none →
      contentField m "X-TIKA:content" = Except.error Err.missingContent) ∧
    (∀ m : ResultMap, (mget m "Content-Type").bind Json.asStr = none →
      contentField m "Content-Type" = Except.error Err.missingContent) ∧
    (∀ (m : ResultMap) (key s : String),
      (mget m key).bind Json.asStr = some s →
      contentField m key = Except.ok s) := by
  have hj : ∀ path : String,
      joinUrl c.url path = Except.ok ⟨true, c.url.repr ++ path⟩ := by
    intro path
    unfold joinUrl
    rw [hc]
    rfl
  refine ⟨⟨hj _, ?_⟩, ⟨hj _, ?_⟩, ⟨hj _, ?_⟩, ?_, ?_, ?_, ?_⟩
  · unfold RemoteClient.html
    rw [request_run ext net c "tika/html" b evs hc hin]
  · unfold RemoteClient.text
    rw [request_run ext net c "tika/text" b evs hc hin]
  · unfold RemoteClient.mimetype
    rw [request_run ext net c "meta" b evs hc hin]
  · unfold RemoteClient.metadata
    rw [request_run ext net c "meta" b evs hc hin]
  · intro m hm
    unfold contentField
    rw [hm]
  · intro m hm
    unfold contentField
    rw [hm]
  · intro m key s hm
    unfold contentField
    rw [hm]

/-- C2 witness: the protocol at a concrete client, network and input. -/
theorem remote_protocol_witness :
    RemoteClient.html extJ netJ rcOk =
      (((netJ.httpPut ⟨true, rcOk.url.repr ++ "tika/html"⟩
            [("Accept", "application/json")] [104, 105]).bind
          (fun t => (extJ.parseJsonObj t).mapError Err.jsonParse)).bind
        (fun m => contentField m "X-TIKA:content"),
       [] ++ [HttpEvent.put ⟨true, rcOk.url.repr ++ "tika/html"⟩
         [("Accept", "application/json")] [104, 105]]) :=
  (remote_protocol extJ netJ rcOk [104, 105] [] rfl rfl).1.2

/-- A map with no duplicate keys keeps at most one entry when filtered
to a single key. -/
theorem filter_key_len (k : String) (l : List (String × Json))
    (h : (l.map Prod.fst).Nodup) :
    (l.filter (fun p => p.1 == k)).length ≤ 1 := by
  induction l with
  | nil => simp
  | cons a t ih =>
    rw [List.map_cons, List.nodup_cons] at h
    rw [List.filter_cons]
    by_cases hk : (a.1 == k) = true
    · rw [if_pos hk]
      have hft : t.filter (fun p => p.1 == k) = [] := by
        rw [List.filter_eq_nil_iff]
        intro q hq hqk
        have h1 : q.1 = k := beq_iff_eq.mp hqk
        have h2 : a.1 = k := beq_iff_eq.mp hk
        apply h.1
        rw [h2, ← h1]
        exact List.mem_map_of_mem Prod.fst hq
      rw [hft]
      simp
    · rw [if_neg hk]
      exact ih h.2

/-- Filtering a map to a key does not change that key's lookup. -/
theorem mget_filter (k : String) (l : List (String × Json)) :
    mget (l.filter (fun p => p.1 == k)) k = mget l k := by
  induction l with
  | nil => rfl
  | cons a t ih =>
    rw [List.filter_cons]
    by_cases hk : (a.1 == k) = true
    · rw [if_pos hk]
      unfold mget
      simp only [List.find?, hk]
    · rw [if_neg hk]
      have hk2 : (a.1 == k) = false := by
        rwa [← Bool.not_eq_true]
      unfold mget at ih ⊢
      simp only [List.find?, hk2]
      exact ih

/-- C1: the normalizer's rule table. Html/Text wrap the raw string as
`{"result": raw}`; Mime parses the raw string as a JSON object and
keeps only the `Content-Type` entry (every surviving key is
`Content-Type`, at most one entry survives, and its value is the
original one); Metadata parses and returns every entry unmodified; a
JSON parse failure propagates for both Mime and Metadata. -/
theorem normalizer_shape (ext : Ext) (raw : String) (m : ResultMap)
    (hm : ext.parseJsonObj raw = Except.ok m) :
    (∀ s, process_output ext s Format.Html = Except.ok [("result", Json.str s)]) ∧
    (∀ s, process_output ext s Format.Text = Except.ok [("result", Json.str s)]) ∧
    process_output ext raw Format.Mime =
      Except.ok (m.filter (fun p => p.1 == "Content-Type")) ∧
    (∀ q, q ∈ m.filter (fun p => p.1 == "Content-Type") →
      q.1 = "Content-Type") ∧
    (m.filter (fun p => p.1 == "Content-Type")).length ≤ 1 ∧
    mget (m.filter (fun p => p.1 == "Content-Type")) "Content-Type"
      = mget m "Content-Type" ∧
    process_output ext raw Format.Metadata = Except.ok m ∧
    (∀ s e, ext.parseJsonObj s = Except.error e →
      process_output ext s Format.Mime = Except.error (Err.jsonParse e) ∧
      process_output ext s Format.Metadata = Except.error (Err.jsonParse e)) := by
  refine ⟨fun s => rfl, fun s => rfl, ?_, ?_, ?_, ?_, ?_, ?_⟩
  · unfold process_output
    rw [hm]
  · intro q hq
    exact beq_iff_eq.mp (List.mem_filter.mp hq).2
  · exact filter_key_len "Content-Type" m (ext.parse_nodup raw m hm)
  · exact mget_filter "Content-Type" m
  · unfold process_output
    rw [hm]
  · intro s e he
    unfold process_output
    rw [he]
    exact ⟨rfl, rfl⟩

/-- C1 witness: the Mime rule at a concrete parse result. -/
theorem normalizer_shape_witness :
    process_output extJ "mimeDoc" Format.Mime =
      Except.ok ([("Content-Type", Json.str "text/plain"),
                  ("X-TIKA:content", Json.str "hello")].filter
        (fun p => p.1 == "Content-Type")) :=
  (normalizer_shape extJ "mimeDoc"
    [("Content-Type", Json.str "text/plain"),
     ("X-TIKA:content", Json.str "hello")] rfl).2.2.1

/-- C8 (amended): the local `mimetype()` extraction returns the parsed
MIME type when `Content-Type` is present, a string, and parses; in
every failure mode — field absent, field not a string, or string that
does not parse as a MIME type — it fails with the same
`missingContent` error (the mime parse error is discarded by `.ok()`,
so no `ParseError` is ever produced here). -/
theorem local_mime_extract (ext : Ext) (res : ResultMap) :
    (∀ s m, mget res "Content-Type" = some (Json.str s) →
      ext.parseMime s = some m → mime_extract ext res = Except.ok m) ∧
    ((mget res "Content-Type").bind Json.asStr = none →
      mime_extract ext res = Except.error Err.missingContent) ∧
    (∀ s, mget res "Content-Type" = some (Json.str s) →
      ext.parseMime s = none →
      mime_extract ext res = Except.error Err.missingContent) := by
  refine ⟨?_, ?_, ?_⟩
  · intro s m h1 h2
    unfold mime_extract
    rw [h1]
    dsimp only [Option.bind, Json.asStr]
    rw [h2]
  · intro h
    unfold mime_extract
    rw [h]
    rfl
  · intro s h1 h2
    unfold mime_extract
    rw [h1]
    dsimp only [Option.bind, Json.asStr]
    rw [h2]

/-- C8 witness: a present, parseable `Content-Type` is returned
parsed. -/
theorem local_mime_extract_witness :
    mime_extract extJ [("Content-Type", Json.str "text/plain")] =
      Except.ok ⟨"text", "plain"⟩ :=
  (local_mime_extract extJ [("Content-Type", Json.str "text/plain")]).1
    "text/plain" ⟨"text", "plain"⟩ rfl rfl

/-- C8 counterexample: a `Content-Type` string that does not parse as a
MIME type (`"plain"` has no slash) yields the `missingContent` error,
which is not any of the spec's `ParseError`s — the claim predicts a
`ParseError` here. -/
theorem local_mime_extract_cex :
    mime_extract extJ [("Content-Type", Json.str "plain")] =
      Except.error Err.missingContent ∧
    Err.missingContent.isParseErr = false := by
  exact ⟨rfl, rfl⟩

end Tikatape
